import Mathlib

/-!
Shallow embedding of `substack_scraper.py`, a single-file pipeline that reads
a sitemap, fetches each article, extracts a content container, converts it to
two output representations (raw HTML passthrough and a markdown conversion),
writes the files, and records a manifest (written to `summary.json`).

Strings are modelled by Lean `String`; Python `pathlib.Path` values by the
joined string (`base / name` becomes `base ++ "/" ++ name`).  Network effects
are passed in explicitly: the sitemap fetch outcome is an `Except`, and the
per-URL fetch is a function `String → Option (Option String)` where `none`
means the fetch raised and `some page` is the fetched page, itself modelled
by the result of `soup.find("div", class_="available-content")` on it
(`none` when the page has no such container, `some s` when the serialized
container markup is `s`).  The external `markdownify.markdownify` library
function is a parameter `md : String → String`.  The filesystem is an
association list from path to content where a later write shadows an earlier
one; `rmtree` removes every path under a directory.
-/

namespace SubstackScraper

/-- The enum `OutputOption` of `substack_scraper.py` (lines 41-43): exactly
two members, `HTML = "html"` and `MD = "md"`. -/
inductive OutputOption where
  | HTML
  | MD
deriving DecidableEq, Repr

/-- The `.value` of each enum member, used both as the per-representation
directory name and as the file extension. -/
def OutputOption.value : OutputOption → String
  | .HTML => "html"
  | .MD => "md"

/-- Iteration order of `for output_option in OutputOption` (definition
order of the enum members). -/
def outputOptions : List OutputOption := [OutputOption.HTML, OutputOption.MD]

/-- One `<url>` element of the sitemap document: its optional `<loc>` child
text and optional `<lastmod>` child text. -/
structure UrlEntry where
  loc : Option String
  lastmod : Option String
deriving DecidableEq, Repr

/-- One iteration of the loop of `get_article_urls_and_lastmod`
(lines 61-67): an entry without `<loc>` is skipped; otherwise its url is
appended and the dict entry `url ↦ lastmod.text` (or `""`) is set, a later
assignment overriding an earlier one. -/
def sitemapStep (acc : List String × (String → Option String)) (e : UrlEntry) :
    List String × (String → Option String) :=
  match e.loc with
  | none => acc
  | some u => (acc.1 ++ [u], fun x => if x = u then some (e.lastmod.getD "") else acc.2 x)

/-- `get_article_urls_and_lastmod` (lines 56-68), applied to the parsed
`<url>` elements in document order.  Returns the url list and the
`url_to_lastmod` dict (modelled as a partial function). -/
def get_article_urls_and_lastmod (entries : List UrlEntry) :
    List String × (String → Option String) :=
  entries.foldl sitemapStep ([], fun _ => none)

/-- `extract_article_html` (lines 75-77): `str(soup.find("div",
class_="available-content"))`.  The argument is the `find` result; Python
`str(None)` is the four-character string `"None"`. -/
def extract_article_html (found : Option String) : String :=
  match found with
  | some s => s
  | none => "None"

/-- `convert_to` (lines 80-87).  The Python argument is dynamically typed, so
the carrier is `Option OutputOption`: `some o` is the enum member `o` and
`none` stands for any value outside the enumeration, which hits the wildcard
case and raises `ValueError`.  An `Except.error` models the raise. -/
def convert_to (md : String → String) (html_content : String)
    (output_option : Option OutputOption) : Except String String :=
  match output_option with
  | some OutputOption.HTML => Except.ok html_content
  | some OutputOption.MD => Except.ok (md html_content)
  | _ => Except.error "Unsupported output option"

/-- The file content `store_sitemap` (lines 103-106) writes:
`writelines(url + "\n" for url in urls)`, the concatenation of each url
followed by a newline, in list order. -/
def store_sitemap_content (urls : List String) : String :=
  String.join (urls.map (· ++ "\n"))

/-- `pathlib` path join `base / name`, on the string representation. -/
def pathJoin (base name : String) : String := base ++ "/" ++ name

/-- Python `lastmod.split("T")[0]`: the characters before the first `'T'`
(the whole string when no `'T'` occurs). -/
def splitT0 (lastmod : String) : String := ⟨lastmod.data.takeWhile (· != 'T')⟩

/-- Python `url.rstrip("/")`: drop every trailing `'/'`. -/
def rstripSlash (s : String) : String := ⟨(s.data.reverse.dropWhile (· == '/')).reverse⟩

/-- Python `s.split("/")[-1]`: the characters after the last `'/'` (the whole
string when no `'/'` occurs). -/
def lastSegment (s : String) : String := ⟨(s.data.reverse.takeWhile (· != '/')).reverse⟩

/-- The `date_part` computed at line 110: `lastmod.split("T")[0] if lastmod
else ""` (an empty string is falsy). -/
def dateOf (lastmod : String) : String := if lastmod ≠ "" then splitT0 lastmod else ""

/-- The `base_name` computed at line 111 from the url: final path segment of
the url with trailing slashes stripped first. -/
def segOf (url : String) : String := lastSegment (rstripSlash url)

/-- `make_file_path` (lines 109-116): `base_dir / (base_name + "." + ext)`,
where `base_name` gets the date part and an underscore prepended when the
date part is nonempty. -/
def make_file_path (url lastmod base_dir : String) (output_option : OutputOption) : String :=
  let date_part := dateOf lastmod
  let base_name := segOf url
  let base_name := if date_part ≠ "" then date_part ++ "_" ++ base_name else base_name
  pathJoin base_dir (base_name ++ "." ++ output_option.value)

/-- Python exceptions that `main` can raise, as far as the model observes
them. -/
inductive PyError where
  | nameError
  | requestError
  | valueError
deriving DecidableEq, Repr

/-- Observable state of a run: the files written so far (later writes first,
so lookups see the newest content), the manifest `results` list of
`(url, lastmod)` pairs in append order, and whether the selenium driver is
currently open. -/
structure RunState where
  files : List (String × String)
  manifest : List (String × String)
  driverOpen : Bool
deriving DecidableEq, Repr

/-- How a run ends: normal completion, or an uncaught exception with the
state at the moment it was raised. -/
inductive RunOutcome where
  | ok (s : RunState)
  | fatal (s : RunState) (e : PyError)
deriving DecidableEq, Repr

/-- The state a run ends in, whichever way it ends. -/
def finalState : RunOutcome → RunState
  | .ok s => s
  | .fatal s _ => s

/-- Write a file: the new binding shadows any earlier one for that path. -/
def fsWrite (files : List (String × String)) (path content : String) :
    List (String × String) :=
  (path, content) :: files

/-- Read a file: the newest binding for the path, if any. -/
def fsLookup : List (String × String) → String → Option String
  | [], _ => none
  | (p, c) :: rest, q => if p = q then some c else fsLookup rest q

/-- `shutil.rmtree(base_dir)`: every path under the directory disappears. -/
def rmtreeUnder (files : List (String × String)) (dir : String) :
    List (String × String) :=
  files.filter (fun pc => !((dir ++ "/").data.isPrefixOf pc.1.data))

/-- The `json.dump(results, f, indent=2)` rendering of one manifest entry. -/
def manifestEntryJson (e : String × String) : String :=
  "  \x7b\n    \"url\": \"" ++ e.1 ++ "\",\n    \"lastmod\": \"" ++ e.2 ++ "\"\n  \x7d"

/-- The `json.dump(results, f, indent=2)` rendering of the manifest. -/
def summaryJson (manifest : List (String × String)) : String :=
  match manifest with
  | [] => "[]"
  | _ => "[\n" ++ String.intercalate ",\n" (manifest.map manifestEntryJson) ++ "\n]"

/-- Lines 198-202: for each enum member, compute the planned path under the
member's directory and write the converted content there.  A `ValueError`
from `convert_to` would propagate. -/
def writeOutputs (md : String → String) (output_dir url lastmod content : String)
    (files : List (String × String)) : Except PyError (List (String × String)) :=
  outputOptions.foldlM
    (fun fs opt =>
      match convert_to md content (some opt) with
      | Except.ok converted =>
          Except.ok (fsWrite fs (make_file_path url lastmod (pathJoin output_dir opt.value) opt) converted)
      | Except.error _ => Except.error PyError.valueError)
    files

/-- The per-url loop of `main` (lines 185-209).  `fetch url = none` models
the fetch raising (an uncaught `requests` exception aborts the run);
`fetch url = some page` yields the page, from which the content container is
extracted.  The skip branch fires exactly when the extracted content is
falsy, i.e. the empty string. -/
def loopGo (md : String → String) (output_dir : String)
    (lastmodOf : String → Option String)
    (fetch : String → Option (Option String)) :
    List String → RunState → RunState ⊕ (RunState × PyError)
  | [], st => Sum.inl st
  | url :: rest, st =>
    match fetch url with
    | none => Sum.inr (st, PyError.requestError)
    | some page =>
      let content := extract_article_html page
      if content = "" then loopGo md output_dir lastmodOf fetch rest st
      else
        let lastmod := (lastmodOf url).getD ""
        match writeOutputs md output_dir url lastmod content st.files with
        | Except.error e => Sum.inr (st, e)
        | Except.ok files =>
            loopGo md output_dir lastmodOf fetch rest
              { st with files := files, manifest := st.manifest ++ [(url, lastmod)] }

/-- `main` (lines 119-216) after argument parsing.  `output` is `args.output`
(default `"."`), `paid` is `args.paid`, `sitemapResult` the outcome of the
sitemap fetch-and-parse, `fetch` the per-url fetch outcomes.

Order of effects, as in the source: `output_dir` is bound only when
`args.output != "."` (lines 161-163); the driver is established in paid mode
(lines 165-170); the sitemap is fetched, a failure propagating (line 174);
`store_sitemap(output_dir / "urls.txt", urls)` reads `output_dir`, raising
`NameError` when it was never bound (line 177); each representation
directory is cleared (lines 179-182); the per-url loop runs (lines 185-209);
`summary.json` is written (lines 211-213); `driver.quit()` runs last, only
on this path (lines 215-216). -/
def runMain (md : String → String) (output : String) (paid : Bool)
    (sitemapResult : Except Unit (List UrlEntry))
    (fetch : String → Option (Option String)) : RunOutcome :=
  let outputDirOpt : Option String := if output ≠ "." then some output else none
  let st0 : RunState := { files := [], manifest := [], driverOpen := paid }
  match sitemapResult with
  | Except.error _ => RunOutcome.fatal st0 PyError.requestError
  | Except.ok entries =>
    let res := get_article_urls_and_lastmod entries
    match outputDirOpt with
    | none => RunOutcome.fatal st0 PyError.nameError
    | some output_dir =>
      let files1 := fsWrite st0.files (pathJoin output_dir "urls.txt")
        (store_sitemap_content res.1)
      let files2 := outputOptions.foldl
        (fun fs opt => rmtreeUnder fs (pathJoin output_dir opt.value)) files1
      match loopGo md output_dir res.2 fetch res.1 { st0 with files := files2 } with
      | Sum.inr (st, e) => RunOutcome.fatal st e
      | Sum.inl st =>
          let files3 := fsWrite st.files (pathJoin output_dir "summary.json")
            (summaryJson st.manifest)
          RunOutcome.ok { st with files := files3, driverOpen := false }

/-- The state component of a loop result, whichever way the loop ended. -/
def loopState : RunState ⊕ (RunState × PyError) → RunState
  | Sum.inl s => s
  | Sum.inr (s, _) => s

/-- The manifest-to-files invariant of the loop: every recorded `(url,
lastmod)` pair has a file at the path `make_file_path` plans for it, under
every representation directory. -/
def manifestFilesOk (od : String) (st : RunState) : Prop :=
  ∀ u lm, (u, lm) ∈ st.manifest → ∀ opt : OutputOption,
    fsLookup st.files (make_file_path u lm (pathJoin od opt.value) opt) ≠ none

/-- The run state just before the per-url loop starts: `urls.txt` written,
each representation directory cleared, empty manifest. -/
def initState (output : String) (paid : Bool) (urls : List String) : RunState :=
  { files := outputOptions.foldl
      (fun fs opt => rmtreeUnder fs (pathJoin output opt.value))
      (fsWrite [] (pathJoin output "urls.txt") (store_sitemap_content urls)),
    manifest := [], driverOpen := paid }

/-! ### Helper lemmas about the filesystem model and path strings -/

theorem fsLookup_write_self (fs : List (String × String)) (p c : String) :
    fsLookup (fsWrite fs p c) p = some c := by
  simp [fsLookup, fsWrite]

theorem fsLookup_write_ne (fs : List (String × String)) {p q : String} (c : String)
    (h : p ≠ q) : fsLookup (fsWrite fs p c) q = fsLookup fs q := by
  simp [fsLookup, fsWrite, h]

theorem fsLookup_write_mono (fs : List (String × String)) {q : String} (p c : String)
    (h : fsLookup fs q ≠ none) : fsLookup (fsWrite fs p c) q ≠ none := by
  by_cases hpq : p = q
  · subst hpq; simp [fsLookup_write_self]
  · rwa [fsLookup_write_ne fs c hpq]

theorem str_data_mk (l : List Char) : (String.mk l).data = l := rfl

theorem str_empty_append (s : String) : ("" : String) ++ s = s := by
  apply String.ext
  simp [String.data_append]

theorem pathJoin_data (b n : String) : (pathJoin b n).data = b.data ++ '/' :: n.data := by
  simp [pathJoin, String.data_append]

theorem pathJoin_inj_right {b n₁ n₂ : String} (h : pathJoin b n₁ = pathJoin b n₂) :
    n₁ = n₂ := by
  have hd : (pathJoin b n₁).data = (pathJoin b n₂).data := by rw [h]
  rw [pathJoin_data, pathJoin_data] at hd
  have := List.append_cancel_left hd
  exact String.ext (List.cons_injective.eq_iff.mp this)

theorem pathJoin_ne_of_ne (b : String) {n₁ n₂ : String} (h : n₁ ≠ n₂) :
    pathJoin b n₁ ≠ pathJoin b n₂ :=
  fun he => h (pathJoin_inj_right he)

theorem isPrefixOf_cons_cancel (x : Char) (a b c : List Char) :
    (a ++ x :: b).isPrefixOf (a ++ x :: c) = b.isPrefixOf c := by
  induction a with
  | nil => simp [List.isPrefixOf]
  | cons y ys ih => simpa [List.isPrefixOf] using ih

/-- Every article path written by the loop lies under a representation
directory, so it differs from `{output_dir}/urls.txt`. -/
theorem article_path_ne_urls (od url lm : String) (opt : OutputOption) :
    make_file_path url lm (pathJoin od opt.value) opt ≠ pathJoin od "urls.txt" := by
  intro h
  have hd : (make_file_path url lm (pathJoin od opt.value) opt).data
      = (pathJoin od "urls.txt").data := by rw [h]
  rw [show make_file_path url lm (pathJoin od opt.value) opt
      = pathJoin (pathJoin od opt.value)
        ((if dateOf lm ≠ "" then dateOf lm ++ "_" ++ segOf url else segOf url) ++ "."
          ++ opt.value) from rfl] at hd
  rw [pathJoin_data, pathJoin_data, pathJoin_data, List.append_assoc] at hd
  have h2 := List.append_cancel_left hd
  cases opt <;> simp [OutputOption.value] at h2

theorem summary_path_ne_urls (od : String) :
    pathJoin od "summary.json" ≠ pathJoin od "urls.txt" :=
  pathJoin_ne_of_ne od (by decide)

/-- Clearing a representation directory does not remove
`{output_dir}/urls.txt`. -/
theorem rmtree_keeps_urls (od J : String) (opt : OutputOption) :
    rmtreeUnder [(pathJoin od "urls.txt", J)] (pathJoin od opt.value)
      = [(pathJoin od "urls.txt", J)] := by
  have hfalse : ((pathJoin od opt.value).data ++ ['/']).isPrefixOf
      (pathJoin od "urls.txt").data = false := by
    rw [pathJoin_data, pathJoin_data, List.append_assoc, List.cons_append,
      isPrefixOf_cons_cancel]
    cases opt <;> decide
  simp [rmtreeUnder, List.filter, String.data_append, hfalse]

/-- Unfolded form of `writeOutputs`: the html file is written first, then the
md file; the `ValueError` branch is unreachable for the enum members. -/
theorem writeOutputs_eq (md : String → String) (od url lm c : String)
    (fs : List (String × String)) :
    writeOutputs md od url lm c fs = Except.ok
      (fsWrite (fsWrite fs (make_file_path url lm (pathJoin od OutputOption.HTML.value)
        OutputOption.HTML) c)
        (make_file_path url lm (pathJoin od OutputOption.MD.value) OutputOption.MD)
        (md c)) := rfl

/-! ### Loop lemmas -/

/-- Step equation of the loop when the fetch raises. -/
theorem loopGo_cons_none (md : String → String) (od : String)
    (lmOf : String → Option String) (fetch : String → Option (Option String))
    (url : String) (rest : List String) (st : RunState) (hfu : fetch url = none) :
    loopGo md od lmOf fetch (url :: rest) st = Sum.inr (st, PyError.requestError) := by
  simp only [loopGo, hfu]

/-- Step equation of the loop when the fetch yields a page: either the skip
branch fires, or both representation files are written and the manifest
entry is appended. -/
theorem loopGo_cons_some (md : String → String) (od : String)
    (lmOf : String → Option String) (fetch : String → Option (Option String))
    (url : String) (rest : List String) (st : RunState) (page : Option String)
    (hfu : fetch url = some page) :
    loopGo md od lmOf fetch (url :: rest) st =
      if extract_article_html page = "" then loopGo md od lmOf fetch rest st
      else loopGo md od lmOf fetch rest
        { st with
          files := fsWrite (fsWrite st.files
            (make_file_path url ((lmOf url).getD "") (pathJoin od OutputOption.HTML.value)
              OutputOption.HTML) (extract_article_html page))
            (make_file_path url ((lmOf url).getD "") (pathJoin od OutputOption.MD.value)
              OutputOption.MD) (md (extract_article_html page)),
          manifest := st.manifest ++ [(url, (lmOf url).getD "")] } := by
  simp only [loopGo, hfu, writeOutputs_eq]

/-- A path no loop iteration writes to keeps its content across the whole
loop, however the loop ends. -/
theorem loopGo_lookup_eq (md : String → String) (od : String)
    (lmOf : String → Option String) (fetch : String → Option (Option String))
    (p : String)
    (hp : ∀ url lm opt, make_file_path url lm (pathJoin od (OutputOption.value opt)) opt ≠ p) :
    ∀ (urls : List String) (st : RunState),
      fsLookup (loopState (loopGo md od lmOf fetch urls st)).files p
        = fsLookup st.files p := by
  intro urls
  induction urls with
  | nil => intro st; rfl
  | cons url rest ih =>
    intro st
    cases hfu : fetch url with
    | none => rw [loopGo_cons_none md od lmOf fetch url rest st hfu]; rfl
    | some page =>
      rw [loopGo_cons_some md od lmOf fetch url rest st page hfu]
      by_cases hc : extract_article_html page = ""
      · rw [if_pos hc, ih st]
      · rw [if_neg hc, ih]
        show fsLookup (fsWrite (fsWrite st.files _ _) _ _) p = _
        rw [fsLookup_write_ne _ _ (hp url _ OutputOption.MD),
          fsLookup_write_ne _ _ (hp url _ OutputOption.HTML)]

/-- The loop preserves the manifest-to-files invariant when it completes. -/
theorem loopGo_manifest_ok (md : String → String) (od : String)
    (lmOf : String → Option String) (fetch : String → Option (Option String)) :
    ∀ (urls : List String) (st st' : RunState),
      loopGo md od lmOf fetch urls st = Sum.inl st' →
      manifestFilesOk od st → manifestFilesOk od st' := by
  intro urls
  induction urls with
  | nil =>
    intro st st' h hok
    simp only [loopGo] at h
    cases h
    exact hok
  | cons url rest ih =>
    intro st st' h hok
    cases hfu : fetch url with
    | none => rw [loopGo_cons_none md od lmOf fetch url rest st hfu] at h; cases h
    | some page =>
      rw [loopGo_cons_some md od lmOf fetch url rest st page hfu] at h
      by_cases hc : extract_article_html page = ""
      · rw [if_pos hc] at h
        exact ih st st' h hok
      · rw [if_neg hc] at h
        refine ih _ st' h ?_
        intro u lm hmem opt
        rcases List.mem_append.mp hmem with hold | hnew
        · exact fsLookup_write_mono _ _ _ (fsLookup_write_mono _ _ _ (hok u lm hold opt))
        · have huv : u = url ∧ lm = (lmOf url).getD "" := by
            simpa using hnew
          obtain ⟨hu, hlm⟩ := huv
          subst hu; subst hlm
          cases opt with
          | HTML =>
            apply fsLookup_write_mono
            rw [fsLookup_write_self]
            simp
          | MD =>
            rw [fsLookup_write_self]
            simp

/-- When some url in the remaining list has a raising fetch, the loop ends
with an uncaught fetch exception. -/
theorem loopGo_fetch_fatal (md : String → String) (od : String)
    (lmOf : String → Option String) (fetch : String → Option (Option String)) :
    ∀ (urls : List String) (st : RunState), (∃ u ∈ urls, fetch u = none) →
      ∃ st', loopGo md od lmOf fetch urls st = Sum.inr (st', PyError.requestError) := by
  intro urls
  induction urls with
  | nil => intro st h; simp at h
  | cons url rest ih =>
    intro st h
    obtain ⟨u, hu, hfu⟩ := h
    cases hfurl : fetch url with
    | none => exact ⟨st, loopGo_cons_none md od lmOf fetch url rest st hfurl⟩
    | some page =>
      have hurest : u ∈ rest := by
        rcases List.mem_cons.mp hu with rfl | hmem
        · rw [hfurl] at hfu; cases hfu
        · exact hmem
      rw [loopGo_cons_some md od lmOf fetch url rest st page hfurl]
      by_cases hc : extract_article_html page = ""
      · rw [if_pos hc]
        exact ih st ⟨u, hurest, hfu⟩
      · rw [if_neg hc]
        exact ih _ ⟨u, hurest, hfu⟩

/-! ### Sitemap fold lemmas -/

/-- The url list accumulated by the sitemap loop: the `loc` values of the
entries, in document order, appended after the accumulator. -/
theorem sitemap_foldl_fst :
    ∀ (es : List UrlEntry) (acc : List String × (String → Option String)),
      (es.foldl sitemapStep acc).1 = acc.1 ++ es.filterMap UrlEntry.loc := by
  intro es
  induction es with
  | nil => intro acc; simp
  | cons e rest ih =>
    intro acc
    cases hloc : e.loc with
    | none => simp [List.foldl_cons, sitemapStep, hloc, ih, List.filterMap_cons]
    | some u => simp [List.foldl_cons, sitemapStep, hloc, ih, List.filterMap_cons]

/-- The sitemap dict is untouched at keys no remaining entry binds. -/
theorem sitemap_foldl_untouched :
    ∀ (es : List UrlEntry) (acc : List String × (String → Option String)) (u : String),
      u ∉ es.filterMap UrlEntry.loc → (es.foldl sitemapStep acc).2 u = acc.2 u := by
  intro es
  induction es with
  | nil => intro acc u _; rfl
  | cons e rest ih =>
    intro acc u hu
    cases hloc : e.loc with
    | none =>
      rw [List.filterMap_cons, hloc] at hu
      simpa [List.foldl_cons, sitemapStep, hloc] using ih _ u hu
    | some v =>
      rw [List.filterMap_cons, hloc] at hu
      have hne : u ≠ v := fun h => hu (by simp [h])
      have hrest : u ∉ rest.filterMap UrlEntry.loc := fun h => hu (by simp [h])
      rw [List.foldl_cons]
      rw [ih _ u hrest]
      simp [sitemapStep, hloc, hne]

/-- When the url list has no duplicates, the sitemap dict maps each entry's
url to that entry's `lastmod` text (empty string when absent). -/
theorem sitemap_foldl_get :
    ∀ (es : List UrlEntry) (acc : List String × (String → Option String))
      (e : UrlEntry) (u : String),
      (es.filterMap UrlEntry.loc).Nodup → e ∈ es → e.loc = some u →
      (es.foldl sitemapStep acc).2 u = some (e.lastmod.getD "") := by
  intro es
  induction es with
  | nil => intro acc e u _ hmem; cases hmem
  | cons e₀ rest ih =>
    intro acc e u hnd hmem hloc
    rcases List.mem_cons.mp hmem with rfl | hmem'
    · rw [List.filterMap_cons, hloc] at hnd
      have hnotin : u ∉ rest.filterMap UrlEntry.loc := (List.nodup_cons.mp hnd).1
      rw [List.foldl_cons, sitemap_foldl_untouched rest _ u hnotin]
      simp [sitemapStep, hloc]
    · rw [List.foldl_cons]
      refine ih _ e u ?_ hmem' hloc
      rw [List.filterMap_cons] at hnd
      cases hloc0 : e₀.loc with
      | none => rwa [hloc0] at hnd
      | some v => rw [hloc0] at hnd; exact (List.nodup_cons.mp hnd).2

/-! ### Underscore-join injectivity -/

/-- Joining two strings with an underscore is injective as long as the left
parts contain no underscore. -/
theorem underscore_join_inj :
    ∀ (d₁ : List Char) {s₁ : List Char} (d₂ : List Char) {s₂ : List Char},
      '_' ∉ d₁ → '_' ∉ d₂ → d₁ ++ '_' :: s₁ = d₂ ++ '_' :: s₂ →
      d₁ = d₂ ∧ s₁ = s₂ := by
  intro d₁
  induction d₁ with
  | nil =>
    intro s₁ d₂ s₂ _ h2 h
    cases d₂ with
    | nil => simpa using h
    | cons y ys =>
      simp only [List.nil_append, List.cons_append, List.cons.injEq] at h
      exact absurd (by simp [← h.1]) h2
  | cons x xs ih =>
    intro s₁ d₂ s₂ h1 h2 h
    cases d₂ with
    | nil =>
      simp only [List.nil_append, List.cons_append, List.cons.injEq] at h
      exact absurd (by simp [h.1]) h1
    | cons y ys =>
      simp only [List.cons_append, List.cons.injEq] at h
      obtain ⟨hxy, hrest⟩ := h
      have h1' : '_' ∉ xs := fun hm => h1 (List.mem_cons_of_mem _ hm)
      have h2' : '_' ∉ ys := fun hm => h2 (List.mem_cons_of_mem _ hm)
      obtain ⟨hd, hs⟩ := ih ys h1' h2' hrest
      exact ⟨by rw [hxy, hd], hs⟩

/-! ### Unfolding `main` past the sitemap stage -/

/-- When the output argument differs from `"."` and the sitemap fetch
succeeds, the run writes `urls.txt`, clears the representation directories,
runs the loop, and on normal completion writes `summary.json` and quits the
driver. -/
theorem runMain_ok_unfold (md : String → String) (output : String) (paid : Bool)
    (entries : List UrlEntry) (fetch : String → Option (Option String))
    (h : output ≠ ".") :
    runMain md output paid (Except.ok entries) fetch =
      match loopGo md output (get_article_urls_and_lastmod entries).2 fetch
          (get_article_urls_and_lastmod entries).1
          (initState output paid (get_article_urls_and_lastmod entries).1) with
      | Sum.inr (st, e) => RunOutcome.fatal st e
      | Sum.inl st => RunOutcome.ok
          { st with
            files := fsWrite st.files (pathJoin output "summary.json")
              (summaryJson st.manifest),
            driverOpen := false } := by
  simp only [runMain, initState, if_pos h]

/-! ### Claim theorems -/

/-- C3: with the default output argument `"."`, `output_dir` is never bound
(lines 161-163 assign it only when the argument differs from `"."`), so the
run raises `NameError` when `store_sitemap(output_dir / "urls.txt", ...)`
evaluates its argument, before `urls.txt` or any article file is written:
the run ends fatally with an empty filesystem and empty manifest. -/
theorem c3_default_output_unbound (md : String → String) (paid : Bool)
    (entries : List UrlEntry) (fetch : String → Option (Option String)) :
    runMain md "." paid (Except.ok entries) fetch
      = RunOutcome.fatal { files := [], manifest := [], driverOpen := paid }
        PyError.nameError := by
  rfl

/-- C9: `convert_to` is the identity on the `HTML` (raw-markup) variant, and
a value outside the two enum members hits the wildcard case and raises
`ValueError` (an `Except.error`) rather than returning a converted string. -/
theorem c9_convert_to_html_id_and_fatal (md : String → String) (s : String) :
    convert_to md s (some OutputOption.HTML) = Except.ok s
      ∧ convert_to md s none = Except.error "Unsupported output option" :=
  ⟨rfl, rfl⟩

/-- C4 counterexample: in paid mode, a fatal sitemap failure after the
session was established ends the run with the driver still open — the
session is not released on this exit path, so it is not released on every
exit path. -/
theorem c4_counterexample :
    runMain id "out" true (Except.error ()) (fun _ => none)
      = RunOutcome.fatal { files := [], manifest := [], driverOpen := true }
        PyError.requestError
    ∧ (finalState (runMain id "out" true (Except.error ()) (fun _ => none))).driverOpen
        = true :=
  ⟨rfl, rfl⟩

/-- C4 amended: the session is released exactly when the run completes the
loop and writes the summary (including with zero successes); on a fatal
error after the session was established — a sitemap retrieval failure in
paid mode — the run ends with the session still open. -/
theorem c4_amended (md : String → String) (output : String) (paid : Bool)
    (sm : Except Unit (List UrlEntry)) (fetch : String → Option (Option String)) :
    (∀ st, runMain md output paid sm fetch = RunOutcome.ok st → st.driverOpen = false)
    ∧ (paid = true → sm = Except.error () →
        (finalState (runMain md output paid sm fetch)).driverOpen = true) := by
  constructor
  · intro st h
    cases sm with
    | error e =>
      have h0 : runMain md output paid (Except.error e) fetch
          = RunOutcome.fatal { files := [], manifest := [], driverOpen := paid }
            PyError.requestError := rfl
      rw [h0] at h
      cases h
    | ok entries =>
      by_cases ho : output = "."
      · subst ho
        have h0 : runMain md "." paid (Except.ok entries) fetch
            = RunOutcome.fatal { files := [], manifest := [], driverOpen := paid }
              PyError.nameError := rfl
        rw [h0] at h
        cases h
      · rw [runMain_ok_unfold md output paid entries fetch ho] at h
        cases hL : loopGo md output (get_article_urls_and_lastmod entries).2 fetch
            (get_article_urls_and_lastmod entries).1
            (initState output paid (get_article_urls_and_lastmod entries).1) with
        | inl st1 =>
          rw [hL] at h
          have h' : RunOutcome.ok
              ({ st1 with
                files := fsWrite st1.files (pathJoin output "summary.json")
                  (summaryJson st1.manifest),
                driverOpen := false }) = RunOutcome.ok st := h
          injection h' with h2
          rw [← h2]
        | inr pr =>
          obtain ⟨st1, e⟩ := pr
          rw [hL] at h
          have h' : RunOutcome.fatal st1 e = RunOutcome.ok st := h
          cases h'
  · intro hp hsm
    subst hp
    subst hsm
    rfl

/-- C4 witness: a completed run (zero successes) ends with the driver
closed, and the concrete fatal-sitemap paid run ends with it open. -/
theorem c4_witness :
    (finalState (runMain id "out" false (Except.ok ([] : List UrlEntry))
        (fun _ => none))).driverOpen = false
    ∧ (finalState (runMain id "out2" true (Except.error ())
        (fun _ => none))).driverOpen = true :=
  ⟨(c4_amended id "out" false (Except.ok []) (fun _ => none)).1
      (finalState (runMain id "out" false (Except.ok []) (fun _ => none))) rfl,
   (c4_amended id "out2" true (Except.error ()) (fun _ => none)).2 rfl rfl⟩

/-- C2: the code does not behave as claimed.  `extract_article_html` turns a
page with no `available-content` container into the string `"None"`
(`str(None)`), which is truthy, so the skip branch does not fire: on a
one-entry run whose page has no content container, the run completes, the
article is NOT excluded from the manifest, and both representation files
ARE written, with literal content `"None"`. -/
theorem c2_stringified_none_written :
    extract_article_html none = "None"
    ∧ runMain id "out" false
        (Except.ok [⟨some "https://x.com/p/art", some "2024-03-05T12:00:00Z"⟩])
        (fun _ => some none)
      = RunOutcome.ok (finalState (runMain id "out" false
          (Except.ok [⟨some "https://x.com/p/art", some "2024-03-05T12:00:00Z"⟩])
          (fun _ => some none)))
    ∧ (finalState (runMain id "out" false
        (Except.ok [⟨some "https://x.com/p/art", some "2024-03-05T12:00:00Z"⟩])
        (fun _ => some none))).manifest
        = [("https://x.com/p/art", "2024-03-05T12:00:00Z")]
    ∧ fsLookup (finalState (runMain id "out" false
        (Except.ok [⟨some "https://x.com/p/art", some "2024-03-05T12:00:00Z"⟩])
        (fun _ => some none))).files "out/html/2024-03-05_art.html" = some "None"
    ∧ fsLookup (finalState (runMain id "out" false
        (Except.ok [⟨some "https://x.com/p/art", some "2024-03-05T12:00:00Z"⟩])
        (fun _ => some none))).files "out/md/2024-03-05_art.md" = some "None" :=
  ⟨rfl, rfl, rfl, rfl, rfl⟩

/-- C1 counterexample: on a 3-entry sitemap whose 2nd fetch raises, the run
does not continue to the 3rd url: it aborts with the fetch exception, the
manifest at the abort holds only the 1st entry, and no `summary.json` is
written — not a 2-entry manifest of the 1st and 3rd entries. -/
theorem c1_counterexample :
    runMain id "out" false
        (Except.ok [⟨some "https://x.com/p/a1", some "2024-01-01T00:00:00Z"⟩,
          ⟨some "https://x.com/p/a2", some "2024-01-02T00:00:00Z"⟩,
          ⟨some "https://x.com/p/a3", some "2024-01-03T00:00:00Z"⟩])
        (fun u => if u = "https://x.com/p/a2" then none
          else some (some "<div>c</div>"))
      = RunOutcome.fatal
        { files := [("out/md/2024-01-01_a1.md", "<div>c</div>"),
            ("out/html/2024-01-01_a1.html", "<div>c</div>"),
            ("out/urls.txt",
              "https://x.com/p/a1\nhttps://x.com/p/a2\nhttps://x.com/p/a3\n")],
          manifest := [("https://x.com/p/a1", "2024-01-01T00:00:00Z")],
          driverOpen := false }
        PyError.requestError
    ∧ fsLookup (finalState (runMain id "out" false
        (Except.ok [⟨some "https://x.com/p/a1", some "2024-01-01T00:00:00Z"⟩,
          ⟨some "https://x.com/p/a2", some "2024-01-02T00:00:00Z"⟩,
          ⟨some "https://x.com/p/a3", some "2024-01-03T00:00:00Z"⟩])
        (fun u => if u = "https://x.com/p/a2" then none
          else some (some "<div>c</div>")))).files "out/summary.json" = none
    ∧ (finalState (runMain id "out" false
        (Except.ok [⟨some "https://x.com/p/a1", some "2024-01-01T00:00:00Z"⟩,
          ⟨some "https://x.com/p/a2", some "2024-01-02T00:00:00Z"⟩,
          ⟨some "https://x.com/p/a3", some "2024-01-03T00:00:00Z"⟩])
        (fun u => if u = "https://x.com/p/a2" then none
          else some (some "<div>c</div>")))).manifest
        ≠ [("https://x.com/p/a1", "2024-01-01T00:00:00Z"),
            ("https://x.com/p/a3", "2024-01-03T00:00:00Z")] :=
  ⟨rfl, rfl, by decide⟩

/-- C1 amended: a per-url fetch exception is not caught: instead of skipping
the url and continuing, the run aborts with the fetch error (so no summary
manifest is produced; earlier urls' files remain on disk). -/
theorem c1_amended (md : String → String) (output : String) (paid : Bool)
    (entries : List UrlEntry) (fetch : String → Option (Option String))
    (h : output ≠ ".")
    (hf : ∃ u ∈ (get_article_urls_and_lastmod entries).1, fetch u = none) :
    ∃ st, runMain md output paid (Except.ok entries) fetch
      = RunOutcome.fatal st PyError.requestError := by
  rw [runMain_ok_unfold md output paid entries fetch h]
  obtain ⟨st', hL⟩ := loopGo_fetch_fatal md output
    (get_article_urls_and_lastmod entries).2 fetch
    (get_article_urls_and_lastmod entries).1
    (initState output paid (get_article_urls_and_lastmod entries).1) hf
  exact ⟨st', by rw [hL]⟩

/-- C1 witness: the amended statement at the concrete 3-entry run. -/
theorem c1_witness :
    ∃ st, runMain id "out" false
        (Except.ok [⟨some "https://x.com/p/a1", some "2024-01-01T00:00:00Z"⟩,
          ⟨some "https://x.com/p/a2", some "2024-01-02T00:00:00Z"⟩,
          ⟨some "https://x.com/p/a3", some "2024-01-03T00:00:00Z"⟩])
        (fun u => if u = "https://x.com/p/a2" then none
          else some (some "<div>c</div>"))
      = RunOutcome.fatal st PyError.requestError :=
  c1_amended id "out" false
    [⟨some "https://x.com/p/a1", some "2024-01-01T00:00:00Z"⟩,
      ⟨some "https://x.com/p/a2", some "2024-01-02T00:00:00Z"⟩,
      ⟨some "https://x.com/p/a3", some "2024-01-03T00:00:00Z"⟩]
    (fun u => if u = "https://x.com/p/a2" then none
      else some (some "<div>c</div>"))
    (by decide) ⟨"https://x.com/p/a2", by decide, by rfl⟩

/-- C5: when a run completes, every `(url, lastmod)` pair in the manifest
has a file at exactly the path `make_file_path` plans for it, under each of
the two representation directories `{output}/html` and `{output}/md`. -/
theorem c5_manifest_has_files (md : String → String) (output : String) (paid : Bool)
    (sm : Except Unit (List UrlEntry)) (fetch : String → Option (Option String))
    (st : RunState) (h : runMain md output paid sm fetch = RunOutcome.ok st) :
    ∀ u lm, (u, lm) ∈ st.manifest → ∀ opt : OutputOption,
      fsLookup st.files (make_file_path u lm (pathJoin output (OutputOption.value opt)) opt)
        ≠ none := by
  cases sm with
  | error e =>
    have h0 : runMain md output paid (Except.error e) fetch
        = RunOutcome.fatal { files := [], manifest := [], driverOpen := paid }
          PyError.requestError := rfl
    rw [h0] at h
    cases h
  | ok entries =>
    by_cases ho : output = "."
    · subst ho
      have h0 : runMain md "." paid (Except.ok entries) fetch
          = RunOutcome.fatal { files := [], manifest := [], driverOpen := paid }
            PyError.nameError := rfl
      rw [h0] at h
      cases h
    · rw [runMain_ok_unfold md output paid entries fetch ho] at h
      cases hL : loopGo md output (get_article_urls_and_lastmod entries).2 fetch
          (get_article_urls_and_lastmod entries).1
          (initState output paid (get_article_urls_and_lastmod entries).1) with
      | inl st1 =>
        rw [hL] at h
        have h' : RunOutcome.ok
            ({ st1 with
              files := fsWrite st1.files (pathJoin output "summary.json")
                (summaryJson st1.manifest),
              driverOpen := false }) = RunOutcome.ok st := h
        injection h' with h2
        have hok : manifestFilesOk output st1 := by
          refine loopGo_manifest_ok md output (get_article_urls_and_lastmod entries).2
            fetch (get_article_urls_and_lastmod entries).1
            (initState output paid (get_article_urls_and_lastmod entries).1) st1 hL ?_
          intro u lm hmem
          simp [initState] at hmem
        rw [← h2]
        intro u lm hmem opt
        exact fsLookup_write_mono _ _ _ (hok u lm hmem opt)
      | inr pr =>
        obtain ⟨st1, e⟩ := pr
        rw [hL] at h
        have h' : RunOutcome.fatal st1 e = RunOutcome.ok st := h
        cases h'

/-- C5 witness: the invariant at a concrete completed one-article run. -/
theorem c5_witness :
    fsLookup (finalState (runMain id "out" false
        (Except.ok [⟨some "https://x.com/p/one", none⟩])
        (fun _ => some (some "<div>c</div>")))).files
      (make_file_path "https://x.com/p/one" ""
        (pathJoin "out" (OutputOption.value OutputOption.HTML)) OutputOption.HTML)
      ≠ none :=
  c5_manifest_has_files id "out" false
    (Except.ok [⟨some "https://x.com/p/one", none⟩])
    (fun _ => some (some "<div>c</div>"))
    (finalState (runMain id "out" false
      (Except.ok [⟨some "https://x.com/p/one", none⟩])
      (fun _ => some (some "<div>c</div>"))))
    rfl "https://x.com/p/one" "" (by decide) OutputOption.HTML

/-- C7: the planned path is `{baseDir}/{datePrefix}{lastPathSegment}.{ext}`
with `datePrefix` the part of the timestamp before the literal `T` followed
by an underscore when nonempty; with an empty lastmod there is no date part
and no leading underscore; the last path segment of
`https://example.substack.com/p/my-article/` is `my-article` (trailing slash
stripped before splitting). -/
theorem c7_path_formula :
    (∀ url lastmod base opt, make_file_path url lastmod base opt
      = pathJoin base ((if dateOf lastmod ≠ "" then dateOf lastmod ++ "_" else "")
          ++ segOf url ++ "." ++ OutputOption.value opt))
    ∧ make_file_path "https://example.substack.com/p/my-article/"
        "2024-03-05T12:00:00Z" "out/html" OutputOption.HTML
        = "out/html/2024-03-05_my-article.html"
    ∧ make_file_path "https://example.substack.com/p/my-article/" ""
        "out/html" OutputOption.HTML = "out/html/my-article.html"
    ∧ segOf "https://example.substack.com/p/my-article/" = "my-article" := by
  refine ⟨?_, rfl, rfl, rfl⟩
  intro url lastmod base opt
  by_cases hdp : dateOf lastmod = ""
  · simp [make_file_path, hdp, str_empty_append]
  · simp [make_file_path, hdp]

/-- C8: the sitemap reader returns exactly the `loc` values of the `<url>`
elements in document order (elements lacking `<loc>` are skipped without
shifting later entries), and — when the url list has no duplicates — maps
each url to its `<lastmod>` text, the empty string when absent. -/
theorem c8_sitemap_reader (entries : List UrlEntry) :
    (get_article_urls_and_lastmod entries).1 = entries.filterMap UrlEntry.loc
    ∧ ((entries.filterMap UrlEntry.loc).Nodup →
        ∀ e ∈ entries, ∀ u, e.loc = some u →
          (get_article_urls_and_lastmod entries).2 u = some (e.lastmod.getD "")) := by
  constructor
  · simpa using sitemap_foldl_fst entries ([], fun _ => none)
  · intro hnd e he u hu
    exact sitemap_foldl_get entries ([], fun _ => none) e u hnd he hu

/-- C8 witness: a concrete sitemap with a skipped `<loc>`-less entry and a
`<lastmod>`-less entry. -/
theorem c8_witness :
    (get_article_urls_and_lastmod [⟨some "https://s/p/a", some "2024-01-01"⟩,
        ⟨none, some "x"⟩, ⟨some "https://s/p/b", none⟩]).1
      = ["https://s/p/a", "https://s/p/b"]
    ∧ (get_article_urls_and_lastmod [⟨some "https://s/p/a", some "2024-01-01"⟩,
        ⟨none, some "x"⟩, ⟨some "https://s/p/b", none⟩]).2 "https://s/p/b"
      = some "" :=
  ⟨(c8_sitemap_reader [⟨some "https://s/p/a", some "2024-01-01"⟩,
      ⟨none, some "x"⟩, ⟨some "https://s/p/b", none⟩]).1.trans (by decide),
   (c8_sitemap_reader [⟨some "https://s/p/a", some "2024-01-01"⟩,
      ⟨none, some "x"⟩, ⟨some "https://s/p/b", none⟩]).2 (by decide)
    ⟨some "https://s/p/b", none⟩ (by decide) "https://s/p/b" rfl⟩

/-- Whatever way a run (with a non-default output directory and a good
sitemap) ends, `urls.txt` holds the concatenation of each url followed by a
newline, in sitemap order. -/
theorem urls_txt_after_run (md : String → String) (output : String) (paid : Bool)
    (entries : List UrlEntry) (fetch : String → Option (Option String))
    (h : output ≠ ".") :
    fsLookup (finalState (runMain md output paid (Except.ok entries) fetch)).files
        (pathJoin output "urls.txt")
      = some (String.join (((get_article_urls_and_lastmod entries).1).map (· ++ "\n"))) := by
  rw [runMain_ok_unfold md output paid entries fetch h]
  have hp : ∀ url lm opt, make_file_path url lm (pathJoin output (OutputOption.value opt)) opt
      ≠ pathJoin output "urls.txt" := fun url lm opt => article_path_ne_urls output url lm opt
  have hinit : fsLookup (initState output paid (get_article_urls_and_lastmod entries).1).files
      (pathJoin output "urls.txt")
      = some (store_sitemap_content (get_article_urls_and_lastmod entries).1) := by
    simp only [initState, outputOptions, List.foldl, fsWrite]
    rw [rmtree_keeps_urls, rmtree_keeps_urls]
    simp [fsLookup]
  cases hL : loopGo md output (get_article_urls_and_lastmod entries).2 fetch
      (get_article_urls_and_lastmod entries).1
      (initState output paid (get_article_urls_and_lastmod entries).1) with
  | inl st1 =>
    have hkeep := loopGo_lookup_eq md output (get_article_urls_and_lastmod entries).2
      fetch (pathJoin output "urls.txt") hp (get_article_urls_and_lastmod entries).1
      (initState output paid (get_article_urls_and_lastmod entries).1)
    rw [hL] at hkeep
    show fsLookup (fsWrite st1.files (pathJoin output "summary.json")
      (summaryJson st1.manifest)) (pathJoin output "urls.txt") = _
    rw [fsLookup_write_ne _ _ (summary_path_ne_urls output)]
    have hkeep' : fsLookup st1.files (pathJoin output "urls.txt")
        = fsLookup (initState output paid (get_article_urls_and_lastmod entries).1).files
          (pathJoin output "urls.txt") := hkeep
    rw [hkeep', hinit]
    rfl
  | inr pr =>
    obtain ⟨st1, e⟩ := pr
    have hkeep := loopGo_lookup_eq md output (get_article_urls_and_lastmod entries).2
      fetch (pathJoin output "urls.txt") hp (get_article_urls_and_lastmod entries).1
      (initState output paid (get_article_urls_and_lastmod entries).1)
    rw [hL] at hkeep
    show fsLookup st1.files (pathJoin output "urls.txt") = _
    have hkeep' : fsLookup st1.files (pathJoin output "urls.txt")
        = fsLookup (initState output paid (get_article_urls_and_lastmod entries).1).files
          (pathJoin output "urls.txt") := hkeep
    rw [hkeep', hinit]
    rfl

/-- C10: `urls.txt` is exactly each url followed by a newline, concatenated
in sitemap order; consequently any two runs over the same url list (whatever
their fetch outcomes) hold byte-identical `urls.txt` content. -/
theorem c10_urls_txt (md : String → String) (output : String) (paid : Bool)
    (entries : List UrlEntry) (fetch : String → Option (Option String))
    (h : output ≠ ".") :
    fsLookup (finalState (runMain md output paid (Except.ok entries) fetch)).files
        (pathJoin output "urls.txt")
      = some (String.join (((get_article_urls_and_lastmod entries).1).map (· ++ "\n")))
    ∧ ∀ fetchB : String → Option (Option String),
        fsLookup (finalState (runMain md output paid (Except.ok entries) fetchB)).files
          (pathJoin output "urls.txt")
        = fsLookup (finalState (runMain md output paid (Except.ok entries) fetch)).files
          (pathJoin output "urls.txt") :=
  ⟨urls_txt_after_run md output paid entries fetch h,
   fun fetchB => (urls_txt_after_run md output paid entries fetchB h).trans
     (urls_txt_after_run md output paid entries fetch h).symm⟩

/-- C10 witness: the `urls.txt` content of a concrete aborting run. -/
theorem c10_witness :
    fsLookup (finalState (runMain id "out" false
        (Except.ok [⟨some "https://s/p/a", some "L"⟩]) (fun _ => none))).files
      (pathJoin "out" "urls.txt") = some "https://s/p/a\n" :=
  ((c10_urls_txt id "out" false [⟨some "https://s/p/a", some "L"⟩]
    (fun _ => none) (by decide)).1).trans (by rfl)

/-- C6 counterexample: two inputs whose final path segments differ
(`a_b` vs `b`) and whose date parts differ (`""` vs `"a"`) still collide on
the same planned path `out/a_b.html`, because the underscore joining the
date part to the segment is ambiguous. -/
theorem c6_counterexample :
    make_file_path "https://x.com/p/a_b" "" "out" OutputOption.HTML
      = make_file_path "https://x.com/p/b" "a" "out" OutputOption.HTML
    ∧ segOf "https://x.com/p/a_b" ≠ segOf "https://x.com/p/b"
    ∧ dateOf "" ≠ dateOf "a" := by
  refine ⟨rfl, ?_, ?_⟩ <;> decide

/-- C6 amended: for a fixed base directory and representation, two inputs
map to the same path exactly when they share the computed final path segment
and date part — provided the two date parts are either both empty or both
nonempty and underscore-free (as ISO dates are); without that proviso the
underscore join is ambiguous, see the counterexample. -/
theorem c6_amended (u₁ l₁ u₂ l₂ base : String) (opt : OutputOption)
    (hd : (dateOf l₁ = "" ∧ dateOf l₂ = "")
      ∨ (dateOf l₁ ≠ "" ∧ dateOf l₂ ≠ ""
          ∧ '_' ∉ (dateOf l₁).data ∧ '_' ∉ (dateOf l₂).data)) :
    make_file_path u₁ l₁ base opt = make_file_path u₂ l₂ base opt
      ↔ (segOf u₁ = segOf u₂ ∧ dateOf l₁ = dateOf l₂) := by
  constructor
  · intro he
    have he' : pathJoin base
        ((if dateOf l₁ ≠ "" then dateOf l₁ ++ "_" ++ segOf u₁ else segOf u₁)
          ++ "." ++ opt.value)
      = pathJoin base
        ((if dateOf l₂ ≠ "" then dateOf l₂ ++ "_" ++ segOf u₂ else segOf u₂)
          ++ "." ++ opt.value) := he
    have hn := pathJoin_inj_right he'
    have hnd : ((if dateOf l₁ ≠ "" then dateOf l₁ ++ "_" ++ segOf u₁ else segOf u₁)).data
        = ((if dateOf l₂ ≠ "" then dateOf l₂ ++ "_" ++ segOf u₂ else segOf u₂)).data := by
      have h1 : ((if dateOf l₁ ≠ "" then dateOf l₁ ++ "_" ++ segOf u₁ else segOf u₁)
          ++ "." ++ opt.value).data
        = ((if dateOf l₂ ≠ "" then dateOf l₂ ++ "_" ++ segOf u₂ else segOf u₂)
          ++ "." ++ opt.value).data := by rw [hn]
      simp only [String.data_append, List.append_assoc] at h1
      exact List.append_cancel_right h1
    rcases hd with ⟨hd₁, hd₂⟩ | ⟨hd₁, hd₂, hu₁, hu₂⟩
    · rw [if_neg (by simp [hd₁]), if_neg (by simp [hd₂])] at hnd
      exact ⟨String.ext hnd, hd₁.trans hd₂.symm⟩
    · rw [if_pos hd₁, if_pos hd₂] at hnd
      simp only [String.data_append, List.append_assoc] at hnd
      have hnd' : (dateOf l₁).data ++ '_' :: (segOf u₁).data
          = (dateOf l₂).data ++ '_' :: (segOf u₂).data := by
        simpa using hnd
      obtain ⟨hdd, hss⟩ := underscore_join_inj (dateOf l₁).data (dateOf l₂).data
        hu₁ hu₂ hnd'
      exact ⟨String.ext hss, String.ext hdd⟩
  · intro hsd
    obtain ⟨hs, hdd⟩ := hsd
    simp [make_file_path, hs, hdd]

/-- C6 witness: the amended statement at concrete ISO-dated inputs, where
distinct segments give distinct paths. -/
theorem c6_witness :
    ¬ (make_file_path "https://e/p/x" "2024-03-05T00:00:00Z" "out" OutputOption.HTML
        = make_file_path "https://e/p/y" "2024-03-05T00:00:00Z" "out" OutputOption.HTML) :=
  fun he =>
    absurd ((c6_amended "https://e/p/x" "2024-03-05T00:00:00Z" "https://e/p/y"
      "2024-03-05T00:00:00Z" "out" OutputOption.HTML
      (Or.inr ⟨by decide, by decide, by decide, by decide⟩)).mp he).1 (by decide)

end SubstackScraper
